import Mathlib

/-
Verification of the go-tiny-blog Post Store, slug policy and content
rendering pipeline (src/main.go) against its specification.

The Go program stores JSON-serialized `Post` records in a boltdb bucket
keyed by slug.  We embed:
  * the `Post` struct and its `encoding/json` marshalling/unmarshalling
    (field tags author/body/datePosted/title/slug, all strings carrying
    `omitempty`; `DatePosted time.Time` is modelled as a Nat timestamp);
  * the bucket as an association list of (key, stored bytes), where the
    stored bytes either parse as a JSON value or are malformed;
  * the data-store functions upsertPost / getPost / listPosts / deletePost;
  * the createPostHandler / modifyPostHandler store effects;
  * the slug derivation and the markdown-plus-sanitizer render pipeline
    (the gosimple/slug, gomarkdown and bluemonday libraries are external
    dependencies, modelled from the spec where noted).
-/

set_option linter.unusedVariables false

/-- A blog post record, mirroring the Go struct `Post` in main.go
(fields Author, Body, DatePosted, Title, Slug, in source order;
`DatePosted time.Time` is modelled as a natural-number timestamp). -/
structure Post where
  author : String
  body : String
  datePosted : Nat
  title : String
  slug : String
  deriving DecidableEq

/-- JSON values, the target of `encoding/json` marshalling. -/
inductive Json where
  | null : Json
  | bool (b : Bool) : Json
  | num (n : Nat) : Json
  | str (s : String) : Json
  | arr (xs : List Json) : Json
  | obj (fields : List (String × Json)) : Json

/-- Bytes stored as a bolt bucket value: either bytes that parse as a JSON
value, or bytes that are not valid JSON (possible corruption on disk). -/
inductive StoredBytes where
  | wellFormed (j : Json) : StoredBytes
  | malformed (raw : String) : StoredBytes

/-- Errors returned by `json.Unmarshal`: `invalidJson` models a
`*json.SyntaxError` (raised both for garbage bytes and for the `nil` slice
that `bolt.Bucket.Get` yields on an absent key, with message
"unexpected end of JSON input"), `wrongType` models a
`*json.UnmarshalTypeError` (valid JSON of the wrong shape).
`getPost` has no other error outcomes: in particular there is no distinct
not-found value anywhere in the Go read path. -/
inductive UnmarshalError where
  | invalidJson (msg : String)
  | wrongType (msg : String)
  deriving DecidableEq

/-- The POSTS bucket: keys are slugs (byte strings), values stored bytes.
An association list models the bucket's finite map. -/
abbrev Store := List (String × StoredBytes)

/-- One field of the marshalled JSON object when the Go struct tag carries
`omitempty`: an empty string field is omitted entirely. -/
def omitStr (name : String) (v : String) : List (String × Json) :=
  if v = "" then [] else [(name, Json.str v)]

/-- `json.Marshal` of a `Post`, producing the field-tagged JSON object in Go
struct-field order.  The four string fields carry `omitempty`; `DatePosted`
is a struct in Go, for which `omitempty` has no effect, so it is always
emitted. -/
def marshalJson (p : Post) : Json :=
  Json.obj (omitStr "author" p.author ++ omitStr "body" p.body
    ++ [("datePosted", Json.num p.datePosted)]
    ++ omitStr "title" p.title ++ omitStr "slug" p.slug)

/-- The bytes `upsertPost` writes: `json.Marshal` never fails on `Post`,
and its output always parses back. -/
def marshalPost (p : Post) : StoredBytes :=
  StoredBytes.wellFormed (marshalJson p)

/-- First binding of a field name in a JSON object (Go's decoder uses the
last duplicate, but marshalled objects never contain duplicates). -/
def findField (k : String) : List (String × Json) → Option Json
  | [] => none
  | (k', v) :: rest => if k' = k then some v else findField k rest

/-- Decoding one string field: absent fields keep the Go zero value "". -/
def getStrField (k : String) (fs : List (String × Json)) : Except UnmarshalError String :=
  match findField k fs with
  | none => Except.ok ""
  | some (Json.str s) => Except.ok s
  | some _ => Except.error (UnmarshalError.wrongType k)

/-- Decoding the timestamp field: absent keeps the zero value 0. -/
def getNumField (k : String) (fs : List (String × Json)) : Except UnmarshalError Nat :=
  match findField k fs with
  | none => Except.ok 0
  | some (Json.num n) => Except.ok n
  | some _ => Except.error (UnmarshalError.wrongType k)

/-- `json.Unmarshal` of a JSON value into a `Post`: requires an object,
reads the five tagged fields, ignores unknown fields. -/
def decodePost (j : Json) : Except UnmarshalError Post :=
  match j with
  | Json.obj fs =>
    match getStrField "author" fs with
    | Except.error e => Except.error e
    | Except.ok a =>
      match getStrField "body" fs with
      | Except.error e => Except.error e
      | Except.ok b =>
        match getNumField "datePosted" fs with
        | Except.error e => Except.error e
        | Except.ok d =>
          match getStrField "title" fs with
          | Except.error e => Except.error e
          | Except.ok t =>
            match getStrField "slug" fs with
            | Except.error e => Except.error e
            | Except.ok s => Except.ok ⟨a, b, d, t, s⟩
  | _ => Except.error (UnmarshalError.wrongType "Post")

/-- `json.Unmarshal` applied to the raw value returned by
`bolt.Bucket.Get`: a `none` (Go `nil` slice, absent key) fails with the
syntax error "unexpected end of JSON input", exactly like malformed stored
bytes fail with a syntax error — the two cases share an error class. -/
def unmarshalStored : Option StoredBytes → Except UnmarshalError Post
  | none => Except.error (UnmarshalError.invalidJson "unexpected end of JSON input")
  | some (StoredBytes.malformed _) => Except.error (UnmarshalError.invalidJson "invalid JSON")
  | some (StoredBytes.wellFormed j) => decodePost j

/-- `bolt.Bucket.Put`: replaces any existing value under the key. -/
def putVal (st : Store) (k : String) (v : StoredBytes) : Store :=
  st.filter (fun kv => kv.1 != k) ++ [(k, v)]

/-- `bolt.Bucket.Get`: `none` models the `nil` slice for an absent key. -/
def getVal (st : Store) (k : String) : Option StoredBytes :=
  (st.find? (fun kv => kv.1 == k)).map (fun kv => kv.2)

/-- `upsertPost` (main.go:293-309): marshal the post and `Put` it under the
given slug inside a write transaction.  `json.Marshal` cannot fail for
`Post` and the commit error branch is environmental (disk I/O), so the
store effect is pure. -/
def upsertPost (st : Store) (post : Post) (slug : String) : Store :=
  putVal st slug (marshalPost post)

/-- `getPost` (main.go:338-353): read the value for the slug inside a view
transaction and `json.Unmarshal` it.  An absent key yields the `nil` slice
and hence the same unmarshal-error class as corrupt bytes. -/
def getPost (st : Store) (slug : String) : Except UnmarshalError Post :=
  unmarshalStored (getVal st slug)

/-- `deletePost` (main.go:356-365): `bolt.Bucket.Delete` inside a write
transaction; bolt's `Delete` returns nil when the key is absent, so the
only failure branch (read-only transaction) is unreachable and the call
always succeeds. -/
def deletePost (st : Store) (slug : String) : Except String Store :=
  Except.ok (st.filter (fun kv => kv.1 != slug))

/-- Number of records stored under a key. -/
def countKey (st : Store) (k : String) : Nat :=
  (st.filter (fun kv => kv.1 == k)).length

-- ## Marshal/unmarshal round-trip

theorem findField_append (k : String) (l1 l2 : List (String × Json)) :
    findField k (l1 ++ l2) =
      match findField k l1 with
      | some v => some v
      | none => findField k l2 := by
  induction l1 with
  | nil => simp [findField]
  | cons kv rest ih =>
      by_cases h : kv.1 = k <;> simp [findField, h, ih]

theorem findField_omitStr_ne (k name v : String) (h : name ≠ k) :
    findField k (omitStr name v) = none := by
  unfold omitStr
  split <;> simp [findField, h]

theorem findField_omitStr_same (name v : String) :
    findField name (omitStr name v) =
      if v = "" then none else some (Json.str v) := by
  unfold omitStr
  split <;> simp [findField]

/-- Decoding inverts marshalling: every field of the post comes back. -/
theorem decodePost_marshalJson (p : Post) : decodePost (marshalJson p) = Except.ok p := by
  by_cases ha : p.author = "" <;> by_cases hb : p.body = "" <;>
    by_cases ht : p.title = "" <;> by_cases hs : p.slug = "" <;>
      simp [decodePost, marshalJson, omitStr, ha, hb, ht, hs, findField,
        getStrField, getNumField] <;>
      (cases p; simp_all)

-- ## Store lemmas

theorem getVal_putVal_same (st : Store) (k : String) (v : StoredBytes) :
    getVal (putVal st k v) k = some v := by
  have hnone : (st.filter (fun kv => kv.1 != k)).find? (fun kv => kv.1 == k) = none := by
    rw [List.find?_eq_none]
    intro x hx
    have hmem := (List.mem_filter.mp hx).2
    simp only [bne_iff_ne, ne_eq] at hmem
    simp [hmem]
  simp [putVal, getVal, List.find?_append, hnone, List.find?]

theorem upsertPost_getPost (st : Store) (p : Post) (s : String) :
    getPost (upsertPost st p s) s = Except.ok p := by
  unfold getPost upsertPost
  rw [getVal_putVal_same]
  simpa [unmarshalStored, marshalPost] using decodePost_marshalJson p

theorem countKey_putVal (st : Store) (k : String) (v : StoredBytes) :
    countKey (putVal st k v) k = 1 := by
  have hnil : (st.filter (fun kv => kv.1 != k)).filter (fun kv => kv.1 == k) = [] := by
    rw [List.filter_eq_nil_iff]
    intro a ha
    have hmem := (List.mem_filter.mp ha).2
    simp only [bne_iff_ne, ne_eq] at hmem
    simp [hmem]
  simp [countKey, putVal, List.filter_append, hnil, List.filter]

-- ## Claim C2: upsert/get round-trip

/-- **C2**: for every Post `p` and slug `s`, `Upsert(p, s)` followed by
`Get(s)` returns a Post equal to `p` in every field (author, body,
datePosted, title, slug): the store writes `json.Marshal p` under `s` and
the read path unmarshals it back to exactly `p`. -/
theorem claim2_upsert_get_roundtrip (st : Store) (p : Post) (s : String) :
    getPost (upsertPost st p s) s = Except.ok p :=
  upsertPost_getPost st p s

-- ## Claim C6: second upsert to the same slug is a full overwrite

/-- **C6**: `Upsert(p1, s)` then `Upsert(p2, s)` then `Get(s)` returns `p2`,
and exactly one record is stored under `s` afterwards: a second upsert to
the same slug fully overwrites the first, never duplicating the key. -/
theorem claim6_overwrite_single_record (st : Store) (p1 p2 : Post) (s : String) :
    getPost (upsertPost (upsertPost st p1 s) p2 s) s = Except.ok p2 ∧
    countKey (upsertPost (upsertPost st p1 s) p2 s) s = 1 :=
  ⟨upsertPost_getPost _ p2 s, countKey_putVal _ s _⟩

-- ## Claim C7: deleting an absent slug

theorem filter_ne_of_absent (st : Store) (s : String) (h : getVal st s = none) :
    st.filter (fun kv => kv.1 != s) = st := by
  rw [List.filter_eq_self]
  intro a ha
  have hfind : st.find? (fun kv => kv.1 == s) = none := by
    unfold getVal at h
    exact Option.map_eq_none'.mp h
  have := List.find?_eq_none.mp hfind a ha
  simpa [bne_iff_ne] using this

/-- **C7**: deleting an absent slug succeeds without error (bolt `Delete`
returns nil for a missing key), leaves the store unchanged, and a
subsequent `Get(s)` still reports the key as absent (the read of the `nil`
value fails with "unexpected end of JSON input", never with a post). -/
theorem claim7_delete_absent_idempotent (st : Store) (s : String)
    (h : getVal st s = none) :
    deletePost st s = Except.ok st ∧
    getPost st s = Except.error (UnmarshalError.invalidJson "unexpected end of JSON input") := by
  constructor
  · unfold deletePost
    rw [filter_ne_of_absent st s h]
  · unfold getPost
    rw [h]
    rfl

/-- Witness for C7 at the empty store and slug "missing". -/
theorem claim7_witness :
    getVal ([] : Store) "missing" = none ∧
    (deletePost ([] : Store) "missing" = Except.ok [] ∧
      getPost ([] : Store) "missing" =
        Except.error (UnmarshalError.invalidJson "unexpected end of JSON input")) :=
  ⟨rfl, claim7_delete_absent_idempotent [] "missing" rfl⟩

-- ## Claim C3: absent key vs corrupt record in getPost

/-- **C3** fails on the code (code_bug): `getPost` never returns a distinct
not-found value.  For an absent key, `bolt.Bucket.Get` yields `nil` and
`json.Unmarshal(nil, ...)` fails with the syntax error "unexpected end of
JSON input" — the very same error class produced for stored bytes that are
not valid JSON.  Both outcomes evaluate to `UnmarshalError.invalidJson`,
so "absent" and "unreadable" are conflated, contrary to the claim. -/
theorem claim3_absent_conflated_with_corrupt :
    getPost ([] : Store) "first-post" =
      Except.error (UnmarshalError.invalidJson "unexpected end of JSON input") ∧
    getPost [("first-post", StoredBytes.malformed "corrupt")] "first-post" =
      Except.error (UnmarshalError.invalidJson "invalid JSON") :=
  ⟨rfl, rfl⟩

-- ## Slug policy (main.go:207-212)

/-- ASCII alphanumeric test used by the slug normalizer. -/
def slugAlnum (c : Char) : Bool := c.isDigit || c.isLower || c.isUpper

/-- One collapsing step of the slug normalizer; the flag records whether the
previous emitted character was the separator (also set at the start, so
leading separators are trimmed). -/
def collapseAux : Bool → List Char → List Char
  | _, [] => []
  | prevSep, c :: rest =>
    if slugAlnum c then Char.toLower c :: collapseAux false rest
    else if prevSep then collapseAux true rest
    else '-' :: collapseAux true rest

/-- Modelled from the spec: `slug.Make` of the gosimple/slug library (an
external dependency, not in src/).  Per the spec's slug policy, `normalize`
lowercases and replaces every run of non-alphanumeric characters with a
single "-" separator; transliteration of non-ASCII characters is not
modelled (non-ASCII characters are treated as non-alphanumeric). -/
def slugMake (s : String) : String := String.mk (collapseAux true s.data)

/-- The ASCII digit character for a digit value below ten. -/
def digitChar (d : Nat) : Char := Char.ofNat (48 + d)

/-- Modelled from the spec: `post.DatePosted.Format(time.RFC3339)` (Go
standard library, not in src/) rendered for the Nat-modelled timestamp as
its decimal digit string — deterministic, made only of digit characters,
and distinct for distinct timestamps, like the RFC3339 rendering at
one-second quantization. -/
def timestampChars (t : Nat) : List Char := ((Nat.digits 10 t).map digitChar).reverse

/-- The formatted timestamp as a string. -/
def formatTimestamp (t : Nat) : String := String.mk (timestampChars t)

/-- The slug created by `createPostHandler` (main.go:211):
`fmt.Sprintf("%s-%s", slug.Make(date), slug.Make(title))`. -/
def autoSlug (t : Nat) (title : String) : String :=
  slugMake (formatTimestamp t) ++ "-" ++ slugMake title

theorem digitChar_facts : ∀ d, d < 10 →
    (slugAlnum (digitChar d) = true ∧ Char.toLower (digitChar d) = digitChar d ∧
      (digitChar d).isDigit = true) := by decide

theorem digitChar_inj : ∀ d1, d1 < 10 → ∀ d2, d2 < 10 →
    digitChar d1 = digitChar d2 → d1 = d2 := by decide

theorem timestampChars_mem (t : Nat) :
    ∀ c ∈ timestampChars t, ∃ d, d < 10 ∧ c = digitChar d := by
  intro c hc
  unfold timestampChars at hc
  rw [List.mem_reverse, List.mem_map] at hc
  obtain ⟨d, hd, hcd⟩ := hc
  exact ⟨d, Nat.digits_lt_base (by norm_num) hd, hcd.symm⟩

theorem collapseAux_id_of_alnum (l : List Char)
    (h : ∀ c ∈ l, slugAlnum c = true ∧ Char.toLower c = c) :
    ∀ b, collapseAux b l = l := by
  induction l with
  | nil => intro b; rfl
  | cons c rest ih =>
      intro b
      have hc := h c (by simp)
      simp only [collapseAux, hc.1, if_true, hc.2]
      rw [ih (fun x hx => h x (by simp [hx]))]

theorem slugMake_formatTimestamp (t : Nat) :
    slugMake (formatTimestamp t) = formatTimestamp t := by
  unfold slugMake formatTimestamp
  rw [show (String.mk (timestampChars t)).data = timestampChars t from rfl]
  rw [collapseAux_id_of_alnum]
  intro c hc
  obtain ⟨d, hd, rfl⟩ := timestampChars_mem t c hc
  exact ⟨(digitChar_facts d hd).1, (digitChar_facts d hd).2.1⟩

theorem map_digitChar_inj : ∀ l1 l2 : List Nat, (∀ d ∈ l1, d < 10) →
    (∀ d ∈ l2, d < 10) → l1.map digitChar = l2.map digitChar → l1 = l2 := by
  intro l1
  induction l1 with
  | nil => intro l2 _ _ h; cases l2 <;> simp_all
  | cons d rest ih =>
      intro l2 h1 h2 h
      cases l2 with
      | nil => simp_all
      | cons d' rest' =>
          simp only [List.map_cons, List.cons.injEq] at h
          have hd := digitChar_inj d (h1 d (by simp)) d' (h2 d' (by simp)) h.1
          rw [hd, ih rest' (fun x hx => h1 x (by simp [hx]))
            (fun x hx => h2 x (by simp [hx])) h.2]

theorem timestampChars_inj (t1 t2 : Nat)
    (h : timestampChars t1 = timestampChars t2) : t1 = t2 := by
  unfold timestampChars at h
  have hmap := List.reverse_injective h
  have hdig := map_digitChar_inj _ _
    (fun d hd => Nat.digits_lt_base (by norm_num) hd)
    (fun d hd => Nat.digits_lt_base (by norm_num) hd) hmap
  have := congrArg (Nat.ofDigits 10) hdig
  rwa [Nat.ofDigits_digits, Nat.ofDigits_digits] at this

theorem takeWhile_isDigit_append (l1 rest : List Char)
    (h1 : ∀ c ∈ l1, c.isDigit = true) :
    (l1 ++ '-' :: rest).takeWhile (fun c => c.isDigit) = l1 := by
  induction l1 with
  | nil => simp [List.takeWhile_cons]
  | cons c cs ih =>
      simp only [List.cons_append, List.takeWhile_cons, h1 c (by simp), if_true]
      try rw [ih (fun x hx => h1 x (by simp [hx]))]

theorem autoSlug_data (t : Nat) (title : String) :
    (autoSlug t title).data = timestampChars t ++ '-' :: (slugMake title).data := by
  unfold autoSlug
  rw [slugMake_formatTimestamp]
  simp [formatTimestamp]

theorem autoSlug_inj_time (t1 t2 : Nat) (title : String)
    (h : autoSlug t1 title = autoSlug t2 title) : t1 = t2 := by
  apply timestampChars_inj
  have hdata := congrArg String.data h
  rw [autoSlug_data, autoSlug_data] at hdata
  have h1 := congrArg (List.takeWhile (fun c => c.isDigit)) hdata
  rw [takeWhile_isDigit_append _ _
      (fun c hc => ((timestampChars_mem t1 c hc).elim
        (fun d hd => hd.2 ▸ (digitChar_facts d hd.1).2.2))),
    takeWhile_isDigit_append _ _
      (fun c hc => ((timestampChars_mem t2 c hc).elim
        (fun d hd => hd.2 ▸ (digitChar_facts d hd.1).2.2)))] at h1
  exact h1

-- ## Claim C8: slug derivation and determinism

/-- **C8**: on creation the slug is `normalize(timestamp) ++ "-" ++
normalize(title)` (where `normalize` is the lowercasing, run-collapsing
slug normalizer); slug generation is a pure function of timestamp and
title, so identical inputs yield identical slugs, and for a fixed title,
distinct timestamps always yield distinct slugs. -/
theorem claim8_slug_determinism (t1 t2 : Nat) (title : String) :
    autoSlug t1 title = slugMake (formatTimestamp t1) ++ "-" ++ slugMake title ∧
    (t1 = t2 → autoSlug t1 title = autoSlug t2 title) ∧
    (t1 ≠ t2 → autoSlug t1 title ≠ autoSlug t2 title) :=
  ⟨rfl, fun h => h ▸ rfl, fun hne heq => hne (autoSlug_inj_time t1 t2 title heq)⟩

/-- Witness for C8 at timestamps 5 and 7 with title "x". -/
theorem claim8_witness : (5 : Nat) ≠ 7 ∧ autoSlug 5 "x" ≠ autoSlug 7 "x" :=
  ⟨by decide, (claim8_slug_determinism 5 7 "x").2.2 (by decide)⟩

-- ## HTTP handler store effects (main.go:183-267)

/-- The zero-valued `Post` that `var post Post` declares at the top of each
handler; when `json.Unmarshal` fails with a syntax error nothing has been
written into it. -/
def zeroPost : Post := ⟨"", "", 0, "", ""⟩

/-- Result of a create/modify handler run: the first status code written
(a second `WriteHeader` in Go is superfluous and does not change it), the
store after the run, the key the record was written under, and the post
that was serialized. -/
structure HandlerOut where
  status : Nat
  store : Store
  key : String
  post : Post

/-- `createPostHandler` (main.go:183-227): unmarshals the request body into
`post` — on failure it writes 422 but does not return — then stamps
`DatePosted` with the current server time, derives the slug from the
timestamp and the (possibly zero-valued) title, sets `post.Slug`, and
upserts.  `body` is the outcome of `json.Unmarshal` on the request bytes
(a syntax error leaves the zero-valued post behind), `now` the server
time. -/
def createPostHandler (st : Store) (body : Except UnmarshalError Post) (now : Nat) :
    HandlerOut :=
  let parsed := match body with
    | Except.ok p => p
    | Except.error _ => zeroPost
  let failed := match body with
    | Except.ok _ => false
    | Except.error _ => true
  let stamped : Post := { parsed with datePosted := now }
  let slug := autoSlug now stamped.title
  let final : Post := { stamped with slug := slug }
  { status := if failed then 422 else 201
    store := upsertPost st final slug
    key := slug
    post := final }

/-- `modifyPostHandler` (main.go:234-267): unmarshals the request body —
on failure it writes 422 but does not return — then overwrites `post.Slug`
with the slug taken from the URL, stamps `DatePosted` with the current
server time, and upserts under that same URL slug. -/
def modifyPostHandler (st : Store) (urlSlug : String)
    (body : Except UnmarshalError Post) (now : Nat) : HandlerOut :=
  let parsed := match body with
    | Except.ok p => p
    | Except.error _ => zeroPost
  let failed := match body with
    | Except.ok _ => false
    | Except.error _ => true
  let withSlug : Post := { parsed with slug := urlSlug }
  let final : Post := { withSlug with datePosted := now }
  { status := if failed then 422 else 201
    store := upsertPost st final urlSlug
    key := urlSlug
    post := final }

-- ## Claim C9: the slug doubles as the KV key and is never regenerated on edit

/-- **C9**: every record written through the create or modify path is stored
under a key equal to the `Slug` field of the serialized post (looking the
key up returns exactly the marshalled post whose slug field is that key);
on modify the URL slug is reused verbatim as both key and `Slug` field, and
the key does not depend on the request body at all — in particular a
changed title never regenerates it. -/
theorem claim9_slug_is_key (st : Store) (body : Except UnmarshalError Post)
    (now : Nat) (urlSlug : String) :
    ((createPostHandler st body now).key = (createPostHandler st body now).post.slug ∧
      getVal (createPostHandler st body now).store (createPostHandler st body now).key =
        some (marshalPost (createPostHandler st body now).post)) ∧
    ((modifyPostHandler st urlSlug body now).key = urlSlug ∧
      (modifyPostHandler st urlSlug body now).post.slug = urlSlug ∧
      getVal (modifyPostHandler st urlSlug body now).store urlSlug =
        some (marshalPost (modifyPostHandler st urlSlug body now).post) ∧
      ∀ body2 : Except UnmarshalError Post,
        (modifyPostHandler st urlSlug body2 now).key =
          (modifyPostHandler st urlSlug body now).key) := by
  refine ⟨⟨rfl, ?_⟩, rfl, rfl, ?_, fun body2 => rfl⟩
  · exact getVal_putVal_same st _ _
  · exact getVal_putVal_same st _ _

-- ## Claim C10: a parse failure still writes a record

/-- **C10**: when the request body does not parse as JSON, both handlers
write 422 yet continue: the current server time is stamped, and a
zero-valued post is upserted — under the slug derived from the empty title
on create, and under the URL slug on modify — so the parse error leaves a
new record in the store rather than leaving it unchanged (shown on the
empty store, where the key was previously absent). -/
theorem claim10_parse_error_still_writes (st : Store) (e : UnmarshalError)
    (now : Nat) (urlSlug : String) :
    (createPostHandler st (Except.error e) now).status = 422 ∧
    (createPostHandler st (Except.error e) now).post =
      { zeroPost with datePosted := now, slug := autoSlug now "" } ∧
    (createPostHandler st (Except.error e) now).store =
      upsertPost st { zeroPost with datePosted := now, slug := autoSlug now "" }
        (autoSlug now "") ∧
    getVal (createPostHandler ([] : Store) (Except.error e) now).store (autoSlug now "") =
      some (marshalPost { zeroPost with datePosted := now, slug := autoSlug now "" }) ∧
    getVal ([] : Store) (autoSlug now "") = none ∧
    (modifyPostHandler st urlSlug (Except.error e) now).status = 422 ∧
    (modifyPostHandler st urlSlug (Except.error e) now).store =
      upsertPost st { zeroPost with datePosted := now, slug := urlSlug } urlSlug ∧
    getVal (modifyPostHandler ([] : Store) urlSlug (Except.error e) now).store urlSlug =
      some (marshalPost { zeroPost with datePosted := now, slug := urlSlug }) := by
  refine ⟨rfl, rfl, rfl, ?_, rfl, rfl, rfl, ?_⟩
  · exact getVal_putVal_same [] _ _
  · exact getVal_putVal_same [] _ _

-- ## listPosts (main.go:313-335)

/-- Outcome of a `listPosts` call: either the collection of decoded
(slug, Post) pairs in cursor order, or a Go panic raised inside the view
closure by `panic(err)` on a decode failure (main.go:324). -/
inductive ListOutcome where
  | ok (posts : List (String × Post)) : ListOutcome
  | panicked (msg : String) : ListOutcome

/-- Cursor iteration order: ascending byte order of the key.  Keys are
UTF-8 byte strings, and lexicographic UTF-8 byte order coincides with the
codepoint order underlying `String`'s linear order. -/
def rowLe (a b : String × StoredBytes) : Prop := a.1 ≤ b.1

instance : DecidableRel rowLe := fun a b => inferInstanceAs (Decidable (a.1 ≤ b.1))

instance : IsTotal (String × StoredBytes) rowLe := ⟨fun a b => le_total a.1 b.1⟩

instance : IsTrans (String × StoredBytes) rowLe := ⟨fun a b c hab hbc => le_trans hab hbc⟩

/-- The rows a `bolt.Cursor` yields between `c.First()` and the end:
every binding of the bucket, in ascending key byte order. -/
def cursorRows (st : Store) : Store := List.insertionSort rowLe st

/-- The message carried by a Go `error` value from `json.Unmarshal`. -/
def errMsg : UnmarshalError → String
  | UnmarshalError.invalidJson m => m
  | UnmarshalError.wrongType m => m

/-- Whether stored bytes decode back into a Post. -/
def decodesOk (v : StoredBytes) : Bool :=
  match unmarshalStored (some v) with
  | Except.ok _ => true
  | Except.error _ => false

/-- The decoded post of stored bytes (zero post if undecodable). -/
def decodeD (v : StoredBytes) : Post :=
  match unmarshalStored (some v) with
  | Except.ok p => p
  | Except.error _ => zeroPost

/-- The cursor loop body of `listPosts`: decode each row in order,
`panic(err)` on the first row that fails to unmarshal. -/
def listGo : Store → ListOutcome
  | [] => ListOutcome.ok []
  | (k, v) :: rest =>
    match unmarshalStored (some v) with
    | Except.error e => ListOutcome.panicked (errMsg e)
    | Except.ok p =>
      match listGo rest with
      | ListOutcome.panicked m => ListOutcome.panicked m
      | ListOutcome.ok l => ListOutcome.ok ((k, p) :: l)

/-- `listPosts` (main.go:313-335): iterate every key of the POSTS bucket in
ascending byte order and decode each value.  (The Go code accumulates into
a `PostMap`; the association list here retains the cursor's iteration
order, which indexing by slug forgets.) -/
def listPosts (st : Store) : ListOutcome := listGo (cursorRows st)

theorem unmarshal_of_decodesOk (v : StoredBytes) (h : decodesOk v = true) :
    unmarshalStored (some v) = Except.ok (decodeD v) := by
  unfold decodesOk at h
  unfold decodeD
  cases hu : unmarshalStored (some v) with
  | ok p => simp
  | error e => rw [hu] at h; simp at h

theorem unmarshal_of_not_decodesOk (v : StoredBytes) (h : decodesOk v = false) :
    ∃ e, unmarshalStored (some v) = Except.error e := by
  unfold decodesOk at h
  cases hu : unmarshalStored (some v) with
  | ok p => rw [hu] at h; simp at h
  | error e => exact ⟨e, rfl⟩

theorem listGo_all_ok (l : Store) (h : ∀ kv ∈ l, decodesOk kv.2 = true) :
    listGo l = ListOutcome.ok (l.map (fun kv => (kv.1, decodeD kv.2))) := by
  induction l with
  | nil => rfl
  | cons kv rest ih =>
      obtain ⟨k, v⟩ := kv
      have hv : decodesOk v = true := h (k, v) (by simp)
      simp only [listGo, unmarshal_of_decodesOk v hv,
        ih (fun x hx => h x (by simp [hx])), List.map_cons]

theorem listGo_panics (l : Store) (kv : String × StoredBytes)
    (hmem : kv ∈ l) (hbad : decodesOk kv.2 = false) :
    ∃ m, listGo l = ListOutcome.panicked m := by
  induction l with
  | nil => cases hmem
  | cons hd rest ih =>
      obtain ⟨k, v⟩ := hd
      rcases List.mem_cons.mp hmem with heq | hrest
      · obtain ⟨e, he⟩ := unmarshal_of_not_decodesOk kv.2 hbad
        subst heq
        refine ⟨errMsg e, ?_⟩
        simp only [listGo]
        rw [show unmarshalStored (some v) = Except.error e from he]
      · cases hu : unmarshalStored (some v) with
        | error e => exact ⟨errMsg e, by simp [listGo, hu]⟩
        | ok p =>
            obtain ⟨m, hm⟩ := ih hrest
            exact ⟨m, by simp [listGo, hu, hm]⟩

-- ## Claim C4: listing is complete and sorted by slug byte order

/-- **C4**: when every stored record decodes, `listPosts` returns the
collection of all (slug, Post) pairs of the bucket — a permutation of the
store's decoded bindings, so independent of insertion order — arranged in
ascending byte order of the slug (the cursor's iteration order). -/
theorem claim4_list_sorted_complete (st : Store)
    (h : ∀ kv ∈ st, decodesOk kv.2 = true) :
    listPosts st =
      ListOutcome.ok ((cursorRows st).map (fun kv => (kv.1, decodeD kv.2))) ∧
    List.Sorted (fun a b : String × Post => a.1 ≤ b.1)
      ((cursorRows st).map (fun kv => (kv.1, decodeD kv.2))) ∧
    ((cursorRows st).map (fun kv => (kv.1, decodeD kv.2))).Perm
      (st.map (fun kv => (kv.1, decodeD kv.2))) := by
  refine ⟨?_, ?_, ?_⟩
  · exact listGo_all_ok (cursorRows st)
      (fun kv hkv => h kv (by simpa [cursorRows] using hkv))
  · have hs : List.Sorted rowLe (cursorRows st) :=
      List.sorted_insertionSort rowLe st
    rw [List.Sorted, List.pairwise_map]
    exact hs
  · exact (List.perm_insertionSort rowLe st).map _

/-- Witness for C4: two posts inserted in reverse slug order come back
sorted. -/
theorem claim4_witness :
    (∀ kv ∈ upsertPost (upsertPost ([] : Store) ⟨"B", "yo", 2, "World", "b-slug"⟩ "b-slug")
        ⟨"A", "hi", 1, "Hello", "a-slug"⟩ "a-slug", decodesOk kv.2 = true) ∧
    (listPosts (upsertPost (upsertPost ([] : Store) ⟨"B", "yo", 2, "World", "b-slug"⟩ "b-slug")
        ⟨"A", "hi", 1, "Hello", "a-slug"⟩ "a-slug") =
      ListOutcome.ok ((cursorRows (upsertPost (upsertPost ([] : Store)
          ⟨"B", "yo", 2, "World", "b-slug"⟩ "b-slug")
          ⟨"A", "hi", 1, "Hello", "a-slug"⟩ "a-slug")).map
        (fun kv => (kv.1, decodeD kv.2))) ∧
      List.Sorted (fun a b : String × Post => a.1 ≤ b.1)
        ((cursorRows (upsertPost (upsertPost ([] : Store)
            ⟨"B", "yo", 2, "World", "b-slug"⟩ "b-slug")
            ⟨"A", "hi", 1, "Hello", "a-slug"⟩ "a-slug")).map
          (fun kv => (kv.1, decodeD kv.2))) ∧
      ((cursorRows (upsertPost (upsertPost ([] : Store)
          ⟨"B", "yo", 2, "World", "b-slug"⟩ "b-slug")
          ⟨"A", "hi", 1, "Hello", "a-slug"⟩ "a-slug")).map
        (fun kv => (kv.1, decodeD kv.2))).Perm
        ((upsertPost (upsertPost ([] : Store) ⟨"B", "yo", 2, "World", "b-slug"⟩ "b-slug")
          ⟨"A", "hi", 1, "Hello", "a-slug"⟩ "a-slug").map
          (fun kv => (kv.1, decodeD kv.2)))) :=
  ⟨by decide, claim4_list_sorted_complete _ (by decide)⟩

-- ## Claim C5: a decode failure during List()

/-- **C5** is right about the failure being total but wrong about its form
(code_bug): when any single stored record fails to unmarshal, the whole
`listPosts` call is indeed aborted, but by `panic(err)` inside the view
closure (main.go:324) — the function never returns a typed decoding error
to its caller, contradicting the claim (and the spec itself flags this
original panic as a defect to correct). -/
theorem claim5_list_panics_on_bad_record (st : Store) (kv : String × StoredBytes)
    (hmem : kv ∈ st) (hbad : decodesOk kv.2 = false) :
    ∃ m, listPosts st = ListOutcome.panicked m :=
  listGo_panics (cursorRows st) kv (by simpa [cursorRows] using hmem) hbad

/-- Witness for C5: a single malformed record makes the whole listing
panic. -/
theorem claim5_witness :
    (("a", StoredBytes.malformed "oops") ∈
      ([("a", StoredBytes.malformed "oops")] : Store)) ∧
    decodesOk (StoredBytes.malformed "oops") = false ∧
    ∃ m, listPosts [("a", StoredBytes.malformed "oops")] = ListOutcome.panicked m :=
  ⟨List.mem_singleton.mpr rfl, rfl,
    claim5_list_panics_on_bad_record _ _ (List.mem_singleton.mpr rfl) rfl⟩

-- ## Content rendering pipeline (main.go:150-151)

/-- An HTML token, the unit the sanitizer works on (bluemonday filters the
token stream of its input in the same way). -/
inductive HtmlTok where
  | tagOpen (name : String) (attrs : List (String × String)) : HtmlTok
  | tagClose (name : String) : HtmlTok
  | text (s : String) : HtmlTok
  deriving DecidableEq

/-- Split a character stream at the first '>' (the end of a tag). -/
def splitTag : List Char → List Char × List Char
  | [] => ([], [])
  | '>' :: rest => ([], rest)
  | c :: rest =>
      let p := splitTag rest
      (c :: p.1, p.2)

/-- Split a character list on a separator character. -/
def splitOnChar (sep : Char) : List Char → List (List Char)
  | [] => [[]]
  | c :: rest =>
      match splitOnChar sep rest with
      | [] => [[c]]
      | w :: ws => if c == sep then [] :: w :: ws else (c :: w) :: ws

/-- Strip one level of surrounding double quotes from an attribute value. -/
def stripQuotes (l : List Char) : List Char :=
  let l1 := if l.head? = some '"' then l.drop 1 else l
  if l1.getLast? = some '"' then l1.dropLast else l1

/-- Parse one `name="value"` (or bare `name`) attribute word. -/
def parseAttr (w : List Char) : Option (String × String) :=
  if w = [] then none
  else
    let name := w.takeWhile (fun c => c != '=')
    let rest := w.dropWhile (fun c => c != '=')
    some (String.mk (name.map Char.toLower), String.mk (stripQuotes (rest.drop 1)))

/-- Parse the inside of a tag (between '<' and '>') into a token; tag and
attribute names are lowercased, as HTML is case-insensitive. -/
def parseTag (content : List Char) : HtmlTok :=
  match content with
  | '/' :: rest =>
      HtmlTok.tagClose (String.mk ((rest.takeWhile (fun c => c != ' ')).map Char.toLower))
  | _ =>
      let content1 := if content.getLast? = some '/' then content.dropLast else content
      let name := content1.takeWhile (fun c => c != ' ')
      let attrWords := splitOnChar ' ' (content1.dropWhile (fun c => c != ' '))
      HtmlTok.tagOpen (String.mk (name.map Char.toLower)) (attrWords.filterMap parseAttr)

/-- Tokenize an HTML fragment (fuel-indexed scan; the fuel is the length of
the input, and every step consumes at least one character). -/
def tokenizeAux : Nat → List Char → List HtmlTok
  | 0, _ => []
  | _ + 1, [] => []
  | fuel + 1, '<' :: rest =>
      let p := splitTag rest
      parseTag p.1 :: tokenizeAux fuel p.2
  | fuel + 1, c :: rest =>
      HtmlTok.text (String.mk ((c :: rest).takeWhile (fun x => x != '<')))
        :: tokenizeAux fuel ((c :: rest).dropWhile (fun x => x != '<'))

/-- Tokenize a string of HTML. -/
def tokenizeHtml (s : String) : List HtmlTok := tokenizeAux s.data.length s.data

/-- Number of leading '#' characters of a line. -/
def headingCount (cs : List Char) : Nat := (cs.takeWhile (fun c => c == '#')).length

/-- The heading tag for a heading level between one and six. -/
def headingTag : Nat → String
  | 1 => "h1"
  | 2 => "h2"
  | 3 => "h3"
  | 4 => "h4"
  | 5 => "h5"
  | _ => "h6"

/-- Expand one markdown block: an ATX heading (`# ` to `###### `) becomes
the corresponding heading element, anything else a paragraph. -/
def expandBlock (cs : List Char) : String :=
  if cs = [] then ""
  else
    let n := headingCount cs
    if 1 ≤ n ∧ n ≤ 6 ∧ (cs.drop n).head? = some ' ' then
      "<" ++ headingTag n ++ ">" ++ String.mk (cs.drop (n + 1)) ++ "</" ++ headingTag n ++ ">"
    else "<p>" ++ String.mk cs ++ "</p>"

/-- Split a line after the last '>' character, separating a leading raw
inline-HTML element from trailing markdown source. -/
def splitAtLastGt (cs : List Char) : List Char × List Char :=
  let r := cs.reverse
  ((r.dropWhile (fun c => c != '>')).reverse, (r.takeWhile (fun c => c != '>')).reverse)

/-- Expand one line: a line beginning with an HTML tag passes the raw
element(s) through unchanged (markdown leaves inline HTML alone) and the
remainder of the line is expanded as a block; any other line is a block. -/
def expandLine (cs : List Char) : String :=
  match cs with
  | '<' :: _ =>
      let p := splitAtLastGt cs
      if p.1 = [] then expandBlock cs
      else String.mk p.1 ++ expandBlock p.2
  | _ => expandBlock cs

/-- Modelled from the spec: `markdown.ToHTML` of the gomarkdown library (an
external dependency, not in src/).  Markup expansion is a deterministic
line-based rule set: heading syntax expands to heading elements, other text
to paragraphs, and raw inline HTML passes through to the fragment — the
spec's sanitization property fixes `render("<script>alert(1)</script># Title")`
to expand the heading while the sanitizer removes the script element. -/
def expandMarkdown (s : String) : String :=
  String.join ((splitOnChar '\n' s.data).map (fun cs => expandLine cs))

/-- Does `s` start with the pattern `p` (character-wise)? -/
def startsWithChars : List Char → List Char → Bool
  | [], _ => true
  | _ :: _, [] => false
  | p :: ps, c :: cs => p == c && startsWithChars ps cs

/-- String prefix test via the character lists. -/
def strStarts (s pat : String) : Bool := startsWithChars pat.data s.data

/-- ASCII lowercasing of a string. -/
def lowerStr (s : String) : String := String.mk (s.data.map Char.toLower)

/-- Modelled from the spec: the URL policy of the allow-list sanitizer —
http, https, mailto and relative URLs are allowed; everything else
(javascript:, data:, vbscript:, ...) is rejected. -/
def safeUrl (v : String) : Bool :=
  strStarts (lowerStr v) "http://" || strStarts (lowerStr v) "https://" ||
    strStarts (lowerStr v) "mailto:" || !((lowerStr v).data.contains ':')

/-- Tags whose entire content the sanitizer drops (executable or embedded
content). -/
def skipContentTags : List String := ["script", "style", "iframe", "object", "embed"]

/-- The allow-list of structural and text-formatting tags for user
generated content. -/
def allowedTags : List String :=
  ["p", "h1", "h2", "h3", "h4", "h5", "h6", "em", "strong", "b", "i", "u",
    "a", "ul", "ol", "li", "code", "pre", "blockquote", "img", "br", "hr"]

/-- The attribute allow-list: `href` only on anchors and only with a safe
URL, `src` only on images with a safe URL, plus `alt` and `title`; no
event-handler (`on...`) attribute is ever allowed. -/
def allowAttr (tag : String) (kv : String × String) : Bool :=
  if kv.1 = "href" then tag == "a" && safeUrl kv.2
  else if kv.1 = "src" then tag == "img" && safeUrl kv.2
  else kv.1 == "alt" || kv.1 == "title"

/-- Keep only allow-listed attributes of a tag. -/
def filterAttrs (tag : String) (attrs : List (String × String)) : List (String × String) :=
  attrs.filter (allowAttr tag)

/-- Modelled from the spec: `bluemonday.UGCPolicy().SanitizeBytes` (an
external dependency, not in src/): walk the token stream; drop
skip-content elements together with everything inside them; keep
allow-listed tags with their attributes filtered through the attribute
allow-list; strip any other tag; text passes through.  The `Option String`
state names the skip-content element currently being dropped. -/
def sanitizeAux : Option String → List HtmlTok → List HtmlTok
  | _, [] => []
  | some n, HtmlTok.tagClose m :: rest =>
      if m = n then sanitizeAux none rest else sanitizeAux (some n) rest
  | some n, _ :: rest => sanitizeAux (some n) rest
  | none, HtmlTok.tagOpen m attrs :: rest =>
      if m ∈ skipContentTags then sanitizeAux (some m) rest
      else if m ∈ allowedTags then
        HtmlTok.tagOpen m (filterAttrs m attrs) :: sanitizeAux none rest
      else sanitizeAux none rest
  | none, HtmlTok.tagClose m :: rest =>
      if m ∈ allowedTags then HtmlTok.tagClose m :: sanitizeAux none rest
      else sanitizeAux none rest
  | none, HtmlTok.text s :: rest => HtmlTok.text s :: sanitizeAux none rest

/-- Sanitize a token stream (initially outside any skip-content element). -/
def sanitizeToks (toks : List HtmlTok) : List HtmlTok := sanitizeAux none toks

/-- The whole rendering pipeline: markup expansion, then unconditional
sanitization — `render(rawBody) -> safeHTML` of the spec. -/
def render (body : String) : List HtmlTok :=
  sanitizeToks (tokenizeHtml (expandMarkdown body))

/-- The HTML fragment `getPostHandler` (main.go:150-151) computes for the
post page: `markdown.ToHTML` of the raw body, passed through the
bluemonday sanitizer before it reaches the template (main.go:154).  This is
the only display path that renders a body. -/
def getPostDisplayHTML (post : Post) : List HtmlTok := render post.body

/-- A token free of executable content: not a script/iframe/object/embed
opening tag, no `on...` event-handler attribute, and no
javascript:-scheme href/src value. -/
def tokSafe : HtmlTok → Bool
  | HtmlTok.tagOpen n attrs =>
      n != "script" && n != "iframe" && n != "object" && n != "embed" &&
        attrs.all (fun kv =>
          !(strStarts kv.1 "on") &&
            ((kv.1 != "href" && kv.1 != "src") ||
              !(strStarts (lowerStr kv.2) "javascript:")))
  | HtmlTok.tagClose _ => true
  | HtmlTok.text _ => true

-- ## Sanitizer safety

theorem startsWithChars_mem (p s : List Char) (h : startsWithChars p s = true) :
    ∀ c ∈ p, c ∈ s := by
  induction p generalizing s with
  | nil => intro c hc; cases hc
  | cons x xs ih =>
      cases s with
      | nil => simp [startsWithChars] at h
      | cons y ys =>
          simp only [startsWithChars, Bool.and_eq_true, beq_iff_eq] at h
          intro c hc
          rcases List.mem_cons.mp hc with rfl | hxs
          · exact h.1 ▸ List.mem_cons_self _ _
          · exact List.mem_cons_of_mem _ (ih ys h.2 c hxs)

theorem startsWithChars_head (p s : List Char) (x : Char) (px : List Char)
    (hp : p = x :: px) (h : startsWithChars p s = true) :
    s.head? = some x := by
  subst hp
  cases s with
  | nil => simp [startsWithChars] at h
  | cons y ys =>
      simp only [startsWithChars, Bool.and_eq_true, beq_iff_eq] at h
      simp [h.1]

theorem safeUrl_no_js (v : String) (h : safeUrl v = true) :
    strStarts (lowerStr v) "javascript:" = false := by
  cases hjs : strStarts (lowerStr v) "javascript:" with
  | false => rfl
  | true =>
      exfalso
      unfold strStarts at hjs
      have hhead := startsWithChars_head "javascript:".data (lowerStr v).data
        'j' "avascript:".data rfl hjs
      have hcolon : ':' ∈ (lowerStr v).data :=
        startsWithChars_mem _ _ hjs ':' (by decide)
      unfold safeUrl strStarts at h
      rcases Bool.or_eq_true_iff.mp h with h1 | h4
      · rcases Bool.or_eq_true_iff.mp h1 with h2 | h3
        · rcases Bool.or_eq_true_iff.mp h2 with hh | hh <;>
            · have := startsWithChars_head _ _ 'h' _ rfl hh
              rw [hhead] at this
              exact absurd (Option.some.inj this) (by decide)
        · have := startsWithChars_head _ _ 'm' _ rfl h3
          rw [hhead] at this
          exact absurd (Option.some.inj this) (by decide)
      · rw [Bool.not_eq_true'] at h4
        rw [show (lowerStr v).data.contains ':' = true from
          List.elem_eq_true_of_mem hcolon] at h4
        exact Bool.noConfusion h4

theorem allowAttr_safe (tag : String) (kv : String × String)
    (h : allowAttr tag kv = true) :
    (!(strStarts kv.1 "on") &&
      ((kv.1 != "href" && kv.1 != "src") ||
        !(strStarts (lowerStr kv.2) "javascript:"))) = true := by
  unfold allowAttr at h
  by_cases h1 : kv.1 = "href"
  · rw [if_pos h1, Bool.and_eq_true] at h
    rw [h1, safeUrl_no_js kv.2 h.2]
    rfl
  · rw [if_neg h1] at h
    by_cases h2 : kv.1 = "src"
    · rw [if_pos h2, Bool.and_eq_true] at h
      rw [h2, safeUrl_no_js kv.2 h.2]
      rfl
    · rw [if_neg h2] at h
      rcases Bool.or_eq_true_iff.mp h with h3 | h3 <;>
        · rw [beq_iff_eq] at h3
          rw [h3]
          rfl

theorem tagOpen_allowed_safe (m : String) (attrs : List (String × String))
    (hm : m ∈ allowedTags) :
    tokSafe (HtmlTok.tagOpen m (filterAttrs m attrs)) = true := by
  have h1 : (m != "script") = true := by
    rw [bne_iff_ne]; intro h; rw [h] at hm; exact absurd hm (by decide)
  have h2 : (m != "iframe") = true := by
    rw [bne_iff_ne]; intro h; rw [h] at hm; exact absurd hm (by decide)
  have h3 : (m != "object") = true := by
    rw [bne_iff_ne]; intro h; rw [h] at hm; exact absurd hm (by decide)
  have h4 : (m != "embed") = true := by
    rw [bne_iff_ne]; intro h; rw [h] at hm; exact absurd hm (by decide)
  have h5 : ((filterAttrs m attrs).all fun kv =>
      !(strStarts kv.1 "on") &&
        ((kv.1 != "href" && kv.1 != "src") ||
          !(strStarts (lowerStr kv.2) "javascript:"))) = true := by
    rw [List.all_eq_true]
    intro kv hkv
    exact allowAttr_safe m kv (List.mem_filter.mp hkv).2
  simp only [tokSafe, h1, h2, h3, h4, h5, Bool.and_self]

theorem sanitizeAux_safe (l : List HtmlTok) :
    ∀ mode, (sanitizeAux mode l).all tokSafe = true := by
  induction l with
  | nil => intro mode; cases mode <;> rfl
  | cons t rest ih =>
      intro mode
      cases mode with
      | some n =>
          cases t with
          | tagClose m =>
              by_cases h : m = n <;> simp [sanitizeAux, h, ih]
          | tagOpen m attrs => simpa [sanitizeAux] using ih (some n)
          | text s => simpa [sanitizeAux] using ih (some n)
      | none =>
          cases t with
          | tagOpen m attrs =>
              by_cases h1 : m ∈ skipContentTags
              · simp [sanitizeAux, h1, ih (some m)]
              · by_cases h2 : m ∈ allowedTags
                · simp only [sanitizeAux, h1, if_false, h2, if_true, List.all_cons,
                    Bool.and_eq_true]
                  exact ⟨tagOpen_allowed_safe m attrs h2, ih none⟩
                · simp [sanitizeAux, h1, h2, ih none]
          | tagClose m =>
              by_cases h : m ∈ allowedTags <;> simp [sanitizeAux, h, tokSafe, ih none]
          | text s => simp [sanitizeAux, tokSafe, ih none]

-- ## Claim C1: every displayed body is expanded then sanitized

/-- **C1**: the HTML the post display path produces is exactly the markup
expansion of the raw body passed through the allow-list sanitizer — the
only display path is `getPostDisplayHTML`, defined as that composition, so
no path emits the raw expanded HTML — and for every body the sanitized
token stream contains no script (or iframe/object/embed) element, no
`on...` event-handler attribute, and no javascript:-scheme link; on the
spec's test input, `render("<script>alert(1)</script># Title")` is exactly
a heading element for "Title" with the script element gone. -/
theorem claim1_display_html_sanitized :
    (∀ post : Post, getPostDisplayHTML post =
      sanitizeToks (tokenizeHtml (expandMarkdown post.body))) ∧
    (∀ body : String, (render body).all tokSafe = true) ∧
    render "<script>alert(1)</script># Title" =
      [HtmlTok.tagOpen "h1" [], HtmlTok.text "Title", HtmlTok.tagClose "h1"] :=
  ⟨fun _ => rfl, fun _ => sanitizeAux_safe _ none, by rfl⟩
